import Mathlib

/-!
Verification of `generate_metrics.py`: a script that reads a TrueType font,
extracts per-character metrics (depth, height, italic, skew, width) for every
code point in the font's character map, and writes them out as a Dart literal
table.

The shallow embedding below models the parsed font (the structured data the
`fontTools` library hands the script) and translates the script's functions
`extract_all_available_characters` and `save_complete_metrics`, together with
the `__main__` driver, into Lean. Machine reals (Python floats) are modelled
as rationals; Python's `round(x, 5)` (round-half-to-even at 5 decimal digits)
is modelled exactly on rationals by `round5`.
-/

/-- Python's `round` to an integer: round half to even (banker's rounding). -/
def roundHalfEven (x : ℚ) : ℤ :=
  if x - x.floor < 1 / 2 then x.floor
  else if (1 : ℚ) / 2 < x - x.floor then x.floor + 1
  else if 2 ∣ x.floor then x.floor else x.floor + 1

/-- Python's `round(x, 5)`: round to 5 decimal digits, half to even. -/
def round5 (x : ℚ) : ℚ :=
  (roundHalfEven (x * 100000) : ℚ) / 100000

/-- One record of the output mapping, mirroring the dict built at lines 88-94
of `generate_metrics.py` (keys in source order: depth, height, italic, skew,
width). -/
structure CharacterMetrics where
  depth : ℚ
  height : ℚ
  italic : ℚ
  skew : ℚ
  width : ℚ
deriving DecidableEq, Repr

/-- The ink bounding box returned by `BoundsPen` (`bounds_pen.bounds` when it
is not `None`). -/
structure BBox where
  xMin : ℚ
  yMin : ℚ
  xMax : ℚ
  yMax : ℚ
deriving DecidableEq, Repr

/-- Outcome of drawing a glyph with `BoundsPen` (lines 66-70): a bounding box,
`None` bounds (empty outline), or an exception raised during drawing. -/
inductive DrawOutcome where
  | bounds (b : BBox)
  | noBounds
  | raises
deriving DecidableEq, Repr

/-- The parsed font, i.e. the fields of `TTFont(font_path)` that the script
reads: `head.unitsPerEm`, `hhea.ascender`, `hhea.descender`, the best cmap
(code point to glyph name), `hmtx.metrics` (glyph name to
(advance width, left side bearing)), and the glyph set, each glyph paired
with what drawing it through a `BoundsPen` yields. -/
structure Font where
  unitsPerEm : ℤ
  ascender : ℤ
  descender : ℤ
  cmap : List (ℕ × String)
  hmtx : List (String × (ℕ × ℤ))
  glyphSet : List (String × DrawOutcome)
deriving DecidableEq, Repr

/-- Python dict lookup, modelled on association lists (first match). -/
def dictLookup {α β : Type} [DecidableEq α] : List (α × β) → α → Option β
  | [], _ => none
  | (k, v) :: tl, a => if a = k then some v else dictLookup tl a

/-- `font_height` at line 19: `hhea.ascender / units_per_em`. -/
def font_height (f : Font) : ℚ :=
  (f.ascender : ℚ) / (f.unitsPerEm : ℚ)

/-- `font_depth` at line 20:
`-hhea.descender / units_per_em if hhea.descender < 0 else 0`. -/
def font_depth (f : Font) : ℚ :=
  if f.descender < 0 then -(f.descender : ℚ) / (f.unitsPerEm : ℚ) else 0

/-- Lines 80-94: clamp depth/height/width to be non-negative (`max(0, _)`)
and round each to 5 decimal digits; italic and skew are the constant 0.0. -/
def mkMetrics (d h w : ℚ) : CharacterMetrics :=
  { depth := round5 (max 0 d)
    height := round5 (max 0 h)
    italic := 0
    skew := 0
    width := round5 (max 0 w) }

/-- The body of the per-code-point loop (lines 54-94): resolve the glyph name
through the cmap; if it has no `hmtx.metrics` entry the code point is skipped
(no record); otherwise height/depth come from the ink bounds when drawing
succeeds and yields bounds (`height = y_max/upem if y_max > 0 else
font_height`, `depth = -y_min/upem if y_min < 0 else 0`), and fall back to the
font-wide defaults when the glyph is absent from the glyph set, the bounds are
`None`, or drawing raises; width is `advance_width / units_per_em`. -/
def processCodePoint (f : Font) (cp : ℕ) : Option CharacterMetrics :=
  match dictLookup f.cmap cp with
  | none => none
  | some glyph_name =>
    match dictLookup f.hmtx glyph_name with
    | none => none
    | some (advance_width, _lsb) =>
      match dictLookup f.glyphSet glyph_name with
      | some (DrawOutcome.bounds b) =>
          some (mkMetrics
            (if b.yMin < 0 then -b.yMin / (f.unitsPerEm : ℚ) else 0)
            (if 0 < b.yMax then b.yMax / (f.unitsPerEm : ℚ) else font_height f)
            ((advance_width : ℚ) / (f.unitsPerEm : ℚ)))
      | _ =>
          some (mkMetrics (font_depth f) (font_height f)
            ((advance_width : ℚ) / (f.unitsPerEm : ℚ)))

/-- `extract_all_available_characters` (lines 6-108): iterate over
`sorted(cmap.keys())` and collect the records the loop body emits, keyed by
code point. -/
def extract_all_available_characters (f : Font) : List (ℕ × CharacterMetrics) :=
  (List.insertionSort (fun a b => a ≤ b) (f.cmap.map Prod.fst)).filterMap
    (fun cp => (processCodePoint f cp).map (fun m => (cp, m)))

/-! ### The output formatter (`save_complete_metrics`, lines 147-171) -/

/-- Drop trailing `'0'` characters. -/
def stripTrailingZeros (l : List Char) : List Char :=
  (l.reverse.dropWhile (fun c => c = '0')).reverse

/-- Left-pad a numeral string with zeros to 5 characters. -/
def padToFive (s : String) : String :=
  String.mk (List.replicate (5 - s.length) '0') ++ s

/-- The fractional digits of a 5-decimal value, printed the way Python's
float repr prints them: padded to 5 places, trailing zeros removed, and `"0"`
when the fraction is zero. -/
def fracPartString (fp : ℕ) : String :=
  if fp = 0 then "0"
  else String.mk (stripTrailingZeros (padToFive (toString fp)).data)

/-- Python's repr of a float holding a 5-decimal value (what the f-strings at
line 158 interpolate): integer part, a dot, then the fraction with trailing
zeros trimmed (`0.2`, `0.0`, `0.00049`, ...). -/
def ratToDecimalString (q : ℚ) : String :=
  (if q < 0 then "-" else "")
    ++ toString ((|q| * 100000).floor.toNat / 100000)
    ++ "."
    ++ fracPartString ((|q| * 100000).floor.toNat % 100000)

/-- One line of the emitted table (line 158):
`    {codepoint}: CharacterMetrics({depth}, {height}, {italic}, {skew}, {width}),`. -/
def metric_line (cp : ℕ) (m : CharacterMetrics) : String :=
  "    " ++ toString cp ++ ": CharacterMetrics(" ++ ratToDecimalString m.depth
    ++ ", " ++ ratToDecimalString m.height ++ ", " ++ ratToDecimalString m.italic
    ++ ", " ++ ratToDecimalString m.skew ++ ", " ++ ratToDecimalString m.width
    ++ "),\n"

/-- `dart_output` built at lines 153-160: the outer key is `font_name`, and
the entries follow `sorted(metrics.keys())`, each looked up in the mapping
(the lookup cannot miss since the keys come from the mapping itself; the
unreachable miss arm yields the empty string). -/
def dart_output (font_name : String) (metrics : List (ℕ × CharacterMetrics)) : String :=
  "  \"" ++ font_name ++ "\": \x7b\n"
    ++ String.join ((List.insertionSort (fun a b => a ≤ b) (metrics.map Prod.fst)).map
        (fun cp =>
          match dictLookup metrics cp with
          | some m => metric_line cp m
          | none => ""))
    ++ "  \x7d,"

/-- The default of `save_complete_metrics`'s `font_name` parameter
(line 147). The call at line 215 passes no argument, so this value is always
used. -/
def defaultFontName : String := "Excalifont-Regular"

/-- Line 162: `f'{font_name.lower().replace("-", "_")}_complete_metrics.dart'`
(the replacement pattern is a single character, so `replace` is a character
map). -/
def output_filename (font_name : String) : String :=
  String.mk (font_name.data.map (fun c =>
    if Char.toLower c = '-' then '_' else Char.toLower c))
    ++ "_complete_metrics.dart"

/-- The full text written at lines 164-168: three comment lines, a blank
line, then the table. -/
def save_file_contents (font_name : String) (metrics : List (ℕ × CharacterMetrics)) : String :=
  "// Complete font metrics for " ++ font_name ++ "\n"
    ++ "// Total characters: " ++ toString metrics.length ++ "\n"
    ++ "// Add this to your fontMetricsData map\n\n"
    ++ dart_output font_name metrics

/-- Result of `save_complete_metrics`: either it bails out printing
`"No metrics to save!"` and returns `None` without writing (lines 149-151),
or it writes `save_file_contents` to `output_filename` and returns the
filename (lines 162-171). -/
inductive SaveResult where
  | noMetrics
  | saved (filename : String) (contents : String)
deriving DecidableEq, Repr

/-- `save_complete_metrics` (lines 147-171). -/
def save_complete_metrics (font_name : String)
    (metrics : List (ℕ × CharacterMetrics)) : SaveResult :=
  if metrics.isEmpty then SaveResult.noMetrics
  else SaveResult.saved (output_filename font_name)
    (save_file_contents font_name metrics)

/-- Observable outcome of one run of the script's `__main__` block:
the process exit status, the file written (name and contents) if any, whether
the `"Script failed: ..."` diagnostic was printed (it goes to standard
output, via `print`), whether `traceback.print_exc()` wrote a traceback to
standard error, and whether the `"Failed to extract any characters"` message
was printed. -/
structure RunResult where
  exitCode : ℕ
  written : Option (String × String)
  failedDiagnosticOnStdout : Bool
  tracebackOnStderr : Bool
  printedNoExtractionMsg : Bool
deriving DecidableEq, Repr

/-- The `__main__` driver (lines 201-227). Loading/processing the font may
raise (file unreadable, required table absent, ...); the `Except` argument
models the outcome of everything the `try` block does up to obtaining the
extraction result. On an exception, the handler prints
`f"Script failed: {e}"` to standard output and the traceback to standard
error, and the script then falls off the end: the process exits with
status 0 (there is no `sys.exit`). Otherwise the metrics are saved (with the
default font name: line 215 passes no `font_name`) when non-empty, and a
failure message is printed (again exiting 0, writing nothing) when empty. -/
def mainDriver (font_path : String) (load : Except String Font) : RunResult :=
  match load with
  | Except.error _ =>
      { exitCode := 0, written := none, failedDiagnosticOnStdout := true
        tracebackOnStderr := true, printedNoExtractionMsg := false }
  | Except.ok f =>
      let all_metrics := extract_all_available_characters f
      if all_metrics.isEmpty then
        { exitCode := 0, written := none, failedDiagnosticOnStdout := false
          tracebackOnStderr := false, printedNoExtractionMsg := true }
      else
        match save_complete_metrics defaultFontName all_metrics with
        | SaveResult.noMetrics =>
            { exitCode := 0, written := none, failedDiagnosticOnStdout := false
              tracebackOnStderr := false, printedNoExtractionMsg := false }
        | SaveResult.saved fn contents =>
            { exitCode := 0, written := some (fn, contents)
              failedDiagnosticOnStdout := false, tracebackOnStderr := false
              printedNoExtractionMsg := false }

/-! ### Basic facts about the rounding function -/

/-- `Rat.floor` agrees with the `FloorRing` floor on `ℚ`. -/
lemma rat_floor_eq_floor (x : ℚ) : (Rat.floor x : ℤ) = ⌊x⌋ :=
  (Rat.floor_def' x).trans Rat.floor_def.symm

/-- Unfolding of `round5` through the `FloorRing` floor, convenient for
`norm_num` evaluation. -/
lemma round5_eval (x : ℚ) : round5 x =
    (if x * 100000 - ⌊x * 100000⌋ < 1 / 2 then (⌊x * 100000⌋ : ℚ)
     else if (1 : ℚ) / 2 < x * 100000 - ⌊x * 100000⌋ then (⌊x * 100000⌋ : ℚ) + 1
     else if 2 ∣ ⌊x * 100000⌋ then (⌊x * 100000⌋ : ℚ) else (⌊x * 100000⌋ : ℚ) + 1)
      / 100000 := by
  rw [round5, roundHalfEven, rat_floor_eq_floor]
  split_ifs <;> push_cast <;> ring

/-- Rounding an integer changes nothing. -/
lemma roundHalfEven_intCast (k : ℤ) : roundHalfEven (k : ℚ) = k := by
  rw [roundHalfEven, rat_floor_eq_floor, Int.floor_intCast]
  norm_num

/-- Rounding preserves non-negativity. -/
lemma roundHalfEven_nonneg {x : ℚ} (hx : 0 ≤ x) : 0 ≤ roundHalfEven x := by
  rw [roundHalfEven, rat_floor_eq_floor]
  have h0 : (0 : ℤ) ≤ ⌊x⌋ := Int.floor_nonneg.mpr hx
  split_ifs <;> omega

/-- `round5` preserves non-negativity. -/
lemma round5_nonneg {x : ℚ} (hx : 0 ≤ x) : 0 ≤ round5 x := by
  rw [round5]
  have h1 : (0 : ℚ) ≤ (roundHalfEven (x * 100000) : ℚ) := by
    exact_mod_cast roundHalfEven_nonneg (mul_nonneg hx (by norm_num))
  positivity

/-- `round5` fixes every 5-decimal value. -/
lemma round5_int_div (k : ℤ) : round5 ((k : ℚ) / 100000) = (k : ℚ) / 100000 := by
  rw [round5, div_mul_cancel₀ _ (by norm_num : (100000 : ℚ) ≠ 0), roundHalfEven_intCast]

/-- `round5` is idempotent. -/
lemma round5_idem (x : ℚ) : round5 (round5 x) = round5 x :=
  round5_int_div (roundHalfEven (x * 100000))

/-- `round5 0 = 0`. -/
lemma round5_zero : round5 0 = 0 := by
  have h := round5_int_div 0
  simpa using h

/-! ### Facts about dictionary lookup and the extraction loop -/

/-- A dictionary lookup succeeds exactly on the stored keys. -/
lemma dictLookup_isSome_iff {α β : Type} [DecidableEq α] (l : List (α × β)) (a : α) :
    (∃ b, dictLookup l a = some b) ↔ a ∈ l.map Prod.fst := by
  induction l with
  | nil => simp [dictLookup]
  | cons p tl ih =>
    obtain ⟨k, v⟩ := p
    by_cases h : a = k
    · subst h
      simp [dictLookup]
    · simp [dictLookup, h, ih]

/-- Membership in the extraction result: a pair `(cp, r)` is emitted exactly
when `cp` is a cmap key and the loop body produces `r` for it. Each code
point is processed independently of every other one. -/
lemma mem_extract_iff (f : Font) (cp : ℕ) (r : CharacterMetrics) :
    (cp, r) ∈ extract_all_available_characters f ↔
      (cp ∈ f.cmap.map Prod.fst ∧ processCodePoint f cp = some r) := by
  rw [extract_all_available_characters, List.mem_filterMap]
  constructor
  · rintro ⟨a, ha, hg⟩
    rw [Option.map_eq_some'] at hg
    obtain ⟨m, hm, heq⟩ := hg
    injection heq with h1 h2
    subst h1
    subst h2
    exact ⟨List.mem_insertionSort (fun a b => a ≤ b) |>.mp ha, hm⟩
  · rintro ⟨hmem, hp⟩
    refine ⟨cp, List.mem_insertionSort (fun a b => a ≤ b) |>.mpr hmem, ?_⟩
    rw [hp]
    rfl

/-- The loop body when the glyph resolves, has horizontal metrics, and its
ink bounds are successfully computed. -/
lemma processCodePoint_bounds (f : Font) (cp : ℕ) (g : String) (aw : ℕ) (lsb : ℤ)
    (b : BBox) (hc : dictLookup f.cmap cp = some g)
    (hh : dictLookup f.hmtx g = some (aw, lsb))
    (hb : dictLookup f.glyphSet g = some (DrawOutcome.bounds b)) :
    processCodePoint f cp = some (mkMetrics
      (if b.yMin < 0 then -b.yMin / (f.unitsPerEm : ℚ) else 0)
      (if 0 < b.yMax then b.yMax / (f.unitsPerEm : ℚ) else font_height f)
      ((aw : ℚ) / (f.unitsPerEm : ℚ))) := by
  simp only [processCodePoint, hc, hh, hb]

/-- The loop body when the glyph resolves and has horizontal metrics but its
ink bounds are unavailable (absent glyph, `None` bounds, or an exception):
the font-wide defaults are used. -/
lemma processCodePoint_default (f : Font) (cp : ℕ) (g : String) (aw : ℕ) (lsb : ℤ)
    (hc : dictLookup f.cmap cp = some g)
    (hh : dictLookup f.hmtx g = some (aw, lsb))
    (hb : dictLookup f.glyphSet g = none ∨
      dictLookup f.glyphSet g = some DrawOutcome.noBounds ∨
      dictLookup f.glyphSet g = some DrawOutcome.raises) :
    processCodePoint f cp = some (mkMetrics (font_depth f) (font_height f)
      ((aw : ℚ) / (f.unitsPerEm : ℚ))) := by
  rcases hb with h | h | h <;> simp only [processCodePoint, hc, hh, h]

/-- Every record the loop emits has the clamped-and-rounded shape. -/
lemma extract_record_shape (f : Font) (cp : ℕ) (r : CharacterMetrics)
    (hr : (cp, r) ∈ extract_all_available_characters f) :
    ∃ d h w : ℚ, r = mkMetrics d h w := by
  obtain ⟨-, hp⟩ := (mem_extract_iff f cp r).mp hr
  rcases hc : dictLookup f.cmap cp with - | g
  · simp only [processCodePoint, hc] at hp
    exact Option.noConfusion hp
  rcases hh : dictLookup f.hmtx g with - | ⟨aw, lsb⟩
  · simp only [processCodePoint, hc, hh] at hp
    exact Option.noConfusion hp
  rcases hb : dictLookup f.glyphSet g with - | o
  · rw [processCodePoint_default f cp g aw lsb hc hh (Or.inl hb)] at hp
    exact ⟨_, _, _, (Option.some.inj hp).symm⟩
  rcases o with b | - | -
  · rw [processCodePoint_bounds f cp g aw lsb b hc hh hb] at hp
    exact ⟨_, _, _, (Option.some.inj hp).symm⟩
  · rw [processCodePoint_default f cp g aw lsb hc hh (Or.inr (Or.inl hb))] at hp
    exact ⟨_, _, _, (Option.some.inj hp).symm⟩
  · rw [processCodePoint_default f cp g aw lsb hc hh (Or.inr (Or.inr hb))] at hp
    exact ⟨_, _, _, (Option.some.inj hp).symm⟩

/-- Mapping a function that fixes every element of a list is the identity. -/
lemma map_eq_self_of_mem {α : Type} (l : List α) (F : α → α)
    (h : ∀ p ∈ l, F p = p) : l.map F = l := by
  induction l with
  | nil => rfl
  | cons a tl ih =>
    rw [List.map_cons, h a (List.mem_cons_self a tl),
      ih (fun p hp => h p (List.mem_cons_of_mem a hp))]

/-! ### Concrete fonts used to instantiate the theorems -/

/-- The ink bounds `(0, -200, 300, 700)` of the spec's synthetic glyph. -/
def demoBBox : BBox :=
  { xMin := 0, yMin := -200, xMax := 300, yMax := 700 }

/-- A one-glyph font: `unitsPerEm = 1000`, ascender 800, descender -200,
code point 65 mapped to glyph `"A"` with advance width 500 and ink bounds
`(0, -200, 300, 700)` (the synthetic glyph of the spec's test scenarios). -/
def demoFont : Font :=
  { unitsPerEm := 1000, ascender := 800, descender := -200
    cmap := [(65, "A")]
    hmtx := [("A", (500, 0))]
    glyphSet := [("A", DrawOutcome.bounds demoBBox)] }

/-- The record `demoFont` extraction emits for code point 65. -/
def demoRecord : CharacterMetrics :=
  { depth := 1/5, height := 7/10, italic := 0, skew := 0, width := 1/2 }

/-- Evaluation of the extraction on `demoFont`. -/
lemma demo_extract_eval :
    extract_all_available_characters demoFont = [(65, demoRecord)] := by
  simp only [extract_all_available_characters, demoFont, demoBBox, demoRecord, List.map,
    List.insertionSort, List.orderedInsert, List.filterMap, processCodePoint,
    dictLookup, mkMetrics, font_height, font_depth]
  norm_num [round5_eval, Int.floor_eq_iff, CharacterMetrics.mk.injEq]

/-- A font whose character map holds exactly code points 32, 65 and 9731,
each with an advance-width entry. -/
def completenessFont : Font :=
  { unitsPerEm := 1000, ascender := 800, descender := -200
    cmap := [(65, "A"), (9731, "snowman"), (32, "space")]
    hmtx := [("A", (500, 0)), ("snowman", (600, 0)), ("space", (250, 0))]
    glyphSet := [("A", DrawOutcome.noBounds), ("snowman", DrawOutcome.noBounds),
      ("space", DrawOutcome.noBounds)] }

/-- A font with an empty character map: extraction yields nothing. -/
def emptyFont : Font :=
  { unitsPerEm := 1000, ascender := 800, descender := -200
    cmap := [], hmtx := [], glyphSet := [] }

/-- A font whose only glyph has horizontal metrics but is absent from the
glyph set, so the font-wide defaults apply. -/
def fallbackFont : Font :=
  { unitsPerEm := 1000, ascender := 800, descender := -200
    cmap := [(66, "B")]
    hmtx := [("B", (400, 0))]
    glyphSet := [] }

/-- `unitsPerEm = 2048` and ink bounds reaching `y_max = 1`: the exact value
`1/2048` is not representable in 5 decimal digits, so rounding moves it. -/
def cexFontBounds : Font :=
  { unitsPerEm := 2048, ascender := 1638, descender := -410
    cmap := [(65, "A")]
    hmtx := [("A", (2048, 0))]
    glyphSet := [("A", DrawOutcome.bounds { xMin := 0, yMin := 0, xMax := 1, yMax := 1 })] }

/-- Evaluation of the extraction on `cexFontBounds`. -/
lemma cexFontBounds_extract_eval :
    extract_all_available_characters cexFontBounds =
      [(65, { depth := 0, height := 49/100000, italic := 0, skew := 0, width := 1 })] := by
  simp only [extract_all_available_characters, cexFontBounds, List.map,
    List.insertionSort, List.orderedInsert, List.filterMap, processCodePoint,
    dictLookup, mkMetrics, font_height, font_depth]
  norm_num [round5_eval, Int.floor_eq_iff, CharacterMetrics.mk.injEq]

/-- `unitsPerEm = 2048`, `ascender = 1`, and a glyph with no outline: the
default height `1/2048` is not representable in 5 decimal digits. -/
def cexFontDefaults : Font :=
  { unitsPerEm := 2048, ascender := 1, descender := -1
    cmap := [(66, "B")]
    hmtx := [("B", (2048, 0))]
    glyphSet := [] }

/-- Evaluation of the extraction on `cexFontDefaults`. -/
lemma cexFontDefaults_extract_eval :
    extract_all_available_characters cexFontDefaults =
      [(66, { depth := 49/100000, height := 49/100000, italic := 0, skew := 0, width := 1 })] := by
  simp only [extract_all_available_characters, cexFontDefaults, List.map,
    List.insertionSort, List.orderedInsert, List.filterMap, processCodePoint,
    dictLookup, mkMetrics, font_height, font_depth]
  norm_num [round5_eval, Int.floor_eq_iff, CharacterMetrics.mk.injEq]

/-- `unitsPerEm = 2048` and advance width 1: the exact width `1/2048` is not
representable in 5 decimal digits. -/
def cexFontWidth : Font :=
  { unitsPerEm := 2048, ascender := 2048, descender := -1024
    cmap := [(67, "C")]
    hmtx := [("C", (1, 0))]
    glyphSet := [("C", DrawOutcome.noBounds)] }

/-- Evaluation of the extraction on `cexFontWidth`. -/
lemma cexFontWidth_extract_eval :
    extract_all_available_characters cexFontWidth =
      [(67, { depth := 1/2, height := 1, italic := 0, skew := 0, width := 49/100000 })] := by
  simp only [extract_all_available_characters, cexFontWidth, List.map,
    List.insertionSort, List.orderedInsert, List.filterMap, processCodePoint,
    dictLookup, mkMetrics, font_height, font_depth]
  norm_num [round5_eval, Int.floor_eq_iff, CharacterMetrics.mk.injEq]

/-- The record `fallbackFont` extraction emits for code point 66. -/
def fallbackRecord : CharacterMetrics :=
  { depth := 1/5, height := 4/5, italic := 0, skew := 0, width := 2/5 }

/-- Evaluation of the extraction on `fallbackFont`. -/
lemma fallback_extract_eval :
    extract_all_available_characters fallbackFont = [(66, fallbackRecord)] := by
  simp only [extract_all_available_characters, fallbackFont, fallbackRecord, List.map,
    List.insertionSort, List.orderedInsert, List.filterMap, processCodePoint,
    dictLookup, mkMetrics, font_height, font_depth]
  norm_num [round5_eval, Int.floor_eq_iff, CharacterMetrics.mk.injEq]

/-- A successful loop-body result presupposes a cmap hit and an hmtx hit. -/
lemma processCodePoint_isSome (f : Font) (cp : ℕ) (r : CharacterMetrics)
    (hp : processCodePoint f cp = some r) :
    ∃ g e, dictLookup f.cmap cp = some g ∧ dictLookup f.hmtx g = some e := by
  rcases hc : dictLookup f.cmap cp with - | g
  · simp only [processCodePoint, hc] at hp
    exact Option.noConfusion hp
  rcases hh : dictLookup f.hmtx g with - | e
  · simp only [processCodePoint, hc, hh] at hp
    exact Option.noConfusion hp
  exact ⟨g, e, rfl, hh⟩

/-- Conversely, a cmap hit together with an hmtx hit always yields a record. -/
lemma processCodePoint_isSome_of (f : Font) (cp : ℕ) (g : String) (aw : ℕ) (lsb : ℤ)
    (hc : dictLookup f.cmap cp = some g)
    (hh : dictLookup f.hmtx g = some (aw, lsb)) :
    ∃ m, processCodePoint f cp = some m := by
  rcases hb : dictLookup f.glyphSet g with - | o
  · exact ⟨_, processCodePoint_default f cp g aw lsb hc hh (Or.inl hb)⟩
  rcases o with b | - | -
  · exact ⟨_, processCodePoint_bounds f cp g aw lsb b hc hh hb⟩
  · exact ⟨_, processCodePoint_default f cp g aw lsb hc hh (Or.inr (Or.inl hb))⟩
  · exact ⟨_, processCodePoint_default f cp g aw lsb hc hh (Or.inr (Or.inr hb))⟩

/-- Whatever the bounds outcome, the emitted width field is the clamped and
rounded `advance_width / units_per_em`. -/
lemma processCodePoint_width (f : Font) (cp : ℕ) (g : String) (aw : ℕ) (lsb : ℤ)
    (r : CharacterMetrics) (hc : dictLookup f.cmap cp = some g)
    (hh : dictLookup f.hmtx g = some (aw, lsb))
    (hp : processCodePoint f cp = some r) :
    r.width = round5 (max 0 ((aw : ℚ) / (f.unitsPerEm : ℚ))) := by
  rcases hb : dictLookup f.glyphSet g with - | o
  · rw [processCodePoint_default f cp g aw lsb hc hh (Or.inl hb)] at hp
    rw [← Option.some.inj hp]
    rfl
  rcases o with b | - | -
  · rw [processCodePoint_bounds f cp g aw lsb b hc hh hb] at hp
    rw [← Option.some.inj hp]
    rfl
  · rw [processCodePoint_default f cp g aw lsb hc hh (Or.inr (Or.inl hb))] at hp
    rw [← Option.some.inj hp]
    rfl
  · rw [processCodePoint_default f cp g aw lsb hc hh (Or.inr (Or.inr hb))] at hp
    rw [← Option.some.inj hp]
    rfl

/-- The base name of a path: everything after the last slash. -/
def pathBaseName (p : List Char) : List Char :=
  (p.reverse.takeWhile (fun c => c ≠ '/')).reverse

/-- Strip the extension: drop everything from the last dot on (the whole name
when there is no dot). -/
def stripExtension (s : List Char) : List Char :=
  let r := s.reverse.dropWhile (fun c => c ≠ '.')
  if r.isEmpty then s else (r.drop 1).reverse

/-- Modelled from the spec: the file name §6 claims for the complete variant,
derived from the input font's file name — base name, extension stripped,
lowercased, `-` replaced by `_`, suffixed `_complete_metrics.dart`. This is
the spec's wording, written down for comparison with `output_filename` as the
script actually calls it; it is not code of the script. -/
def spec_derived_filename (font_path : String) : String :=
  String.mk ((stripExtension (pathBaseName font_path.data)).map
    (fun c => if Char.toLower c = '-' then '_' else Char.toLower c))
    ++ "_complete_metrics.dart"

/-! ### The claims -/

/-- C1, counterexample: running the script on the font path
`fonts/MyFont-Bold.ttf` still writes `excalifont_regular_complete_metrics.dart`
— not the path-derived `myfont_bold_complete_metrics.dart` the claim requires
— because line 215 calls `save_complete_metrics` without a `font_name`
argument, so the default `"Excalifont-Regular"` is always used. -/
theorem C1_counterexample :
    (mainDriver "fonts/MyFont-Bold.ttf" (Except.ok demoFont)).written.map Prod.fst =
      some "excalifont_regular_complete_metrics.dart"
    ∧ spec_derived_filename "fonts/MyFont-Bold.ttf" = "myfont_bold_complete_metrics.dart"
    ∧ ("excalifont_regular_complete_metrics.dart" : String) ≠
        "myfont_bold_complete_metrics.dart" := by
  refine ⟨?_, by decide, by decide⟩
  have h : mainDriver "fonts/MyFont-Bold.ttf" (Except.ok demoFont) =
      { exitCode := 0
        written := some (output_filename defaultFontName,
          save_file_contents defaultFontName [(65, demoRecord)])
        failedDiagnosticOnStdout := false, tracebackOnStderr := false
        printedNoExtractionMsg := false } := by
    simp [mainDriver, demo_extract_eval, save_complete_metrics]
  rw [h]
  show some (output_filename defaultFontName) = _
  decide

/-- C1, amended: on every run that writes a file, the output file name and
the outer key are the constant default font name `"Excalifont-Regular"`
(file `excalifont_regular_complete_metrics.dart`), independent of the font
path passed on the command line, because line 215 never passes a
`font_name`. -/
theorem C1_output_name_constant :
    ∀ (font_path : String) (f : Font),
      extract_all_available_characters f ≠ [] →
      (mainDriver font_path (Except.ok f)).written =
        some (output_filename defaultFontName,
          save_file_contents defaultFontName (extract_all_available_characters f))
      ∧ output_filename defaultFontName = "excalifont_regular_complete_metrics.dart" := by
  intro p f h
  refine ⟨?_, by decide⟩
  rcases hm : extract_all_available_characters f with - | ⟨a, tl⟩
  · exact absurd hm h
  · simp [mainDriver, hm, save_complete_metrics]

/-- C1, witness: instantiation of the amended claim on `demoFont` with an
arbitrary path. -/
theorem C1_witness :
    (mainDriver "anything.ttf" (Except.ok demoFont)).written =
      some (output_filename defaultFontName,
        save_file_contents defaultFontName (extract_all_available_characters demoFont))
    ∧ output_filename defaultFontName = "excalifont_regular_complete_metrics.dart" :=
  C1_output_name_constant "anything.ttf" demoFont
    (by rw [demo_extract_eval]; exact List.cons_ne_nil _ _)

/-- C2, counterexample: on a run whose processing raises (e.g. the font file
is unreadable), the handler at lines 225-227 prints and returns normally, so
the process terminates with exit status 0 — not the non-zero status the claim
requires (and the `"Script failed"` diagnostic goes to standard output, not
standard error). -/
theorem C2_counterexample :
    (mainDriver "Font.ttf" (Except.error "font file unreadable")).exitCode = 0
    ∧ (mainDriver "Font.ttf" (Except.error "font file unreadable")).failedDiagnosticOnStdout
        = true := ⟨rfl, rfl⟩

/-- C2, amended: on every run in which an uncaught error occurs during
processing, the program prints a diagnostic to standard output and a
traceback to standard error, writes no file, and terminates with exit
status 0 (the handler swallows the exception; there is no `sys.exit`). -/
theorem C2_error_run :
    ∀ (font_path msg : String),
      mainDriver font_path (Except.error msg) =
        { exitCode := 0, written := none, failedDiagnosticOnStdout := true
          tracebackOnStderr := true, printedNoExtractionMsg := false } := by
  intro p m
  rfl

/-- C2, witness: a concrete failing run. -/
theorem C2_witness :
    mainDriver "Missing.ttf" (Except.error "required table absent") =
      { exitCode := 0, written := none, failedDiagnosticOnStdout := true
        tracebackOnStderr := true, printedNoExtractionMsg := false } :=
  C2_error_run "Missing.ttf" "required table absent"

/-- C3: every record in the extracted mapping has non-negative depth, height
and width, and italic and skew are exactly 0. -/
theorem C3_field_invariants :
    ∀ (f : Font) (cp : ℕ) (r : CharacterMetrics),
      (cp, r) ∈ extract_all_available_characters f →
      0 ≤ r.depth ∧ 0 ≤ r.height ∧ 0 ≤ r.width ∧ r.italic = 0 ∧ r.skew = 0 := by
  intro f cp r hr
  obtain ⟨d, h, w, rfl⟩ := extract_record_shape f cp r hr
  exact ⟨round5_nonneg (le_max_left 0 d), round5_nonneg (le_max_left 0 h),
    round5_nonneg (le_max_left 0 w), rfl, rfl⟩

/-- C3, witness: instantiation on the record `demoFont` emits for code
point 65. -/
theorem C3_witness :
    0 ≤ demoRecord.depth ∧ 0 ≤ demoRecord.height ∧ 0 ≤ demoRecord.width
    ∧ demoRecord.italic = 0 ∧ demoRecord.skew = 0 :=
  C3_field_invariants demoFont 65 demoRecord
    (by rw [demo_extract_eval]; exact List.mem_singleton_self _)

/-- C4, counterexample: `unitsPerEm = 2048` and ink bounds with
`y_max = 1 > 0` yield an emitted height of `0.00049`, not `1/2048`: the claim
ignores the 5-decimal rounding `round(height, 5)` applied at record-creation
(line 90), so the emitted height does not equal `max_y / units_per_em`. -/
theorem C4_counterexample :
    extract_all_available_characters cexFontBounds =
      [(65, { depth := 0, height := 49/100000, italic := 0, skew := 0, width := 1 })]
    ∧ dictLookup cexFontBounds.cmap 65 = some "A"
    ∧ dictLookup cexFontBounds.glyphSet "A" =
        some (DrawOutcome.bounds { xMin := 0, yMin := 0, xMax := 1, yMax := 1 })
    ∧ ((0 : ℚ) < 1)
    ∧ (49 : ℚ) / 100000 ≠ (1 : ℚ) / 2048 := by
  refine ⟨cexFontBounds_extract_eval, by decide, by decide, by norm_num, by norm_num⟩

/-- C4, amended: for every glyph whose ink bounding box is successfully
computed (in a font with positive `unitsPerEm` and non-negative ascender),
the emitted height is `max_y / units_per_em` when `max_y > 0` and the
font-wide default height otherwise, and the emitted depth is
`-min_y / units_per_em` when `min_y < 0` and 0 otherwise — each rounded to
5 decimal digits; the spec's instance (bounds `(0, -200, 300, 700)`,
`unitsPerEm = 1000`) still yields exactly `height = 0.7`, `depth = 0.2`. -/
theorem C4_bounds_height_depth :
    ∀ (f : Font) (cp : ℕ) (g : String) (aw : ℕ) (lsb : ℤ) (b : BBox)
      (r : CharacterMetrics),
      0 < f.unitsPerEm → 0 ≤ f.ascender →
      dictLookup f.cmap cp = some g →
      dictLookup f.hmtx g = some (aw, lsb) →
      dictLookup f.glyphSet g = some (DrawOutcome.bounds b) →
      (cp, r) ∈ extract_all_available_characters f →
      r.height = round5 (if 0 < b.yMax then b.yMax / (f.unitsPerEm : ℚ)
        else font_height f)
      ∧ r.depth = round5 (if b.yMin < 0 then -b.yMin / (f.unitsPerEm : ℚ) else 0) := by
  intro f cp g aw lsb b r hu ha hc hh hb hr
  obtain ⟨-, hp⟩ := (mem_extract_iff f cp r).mp hr
  rw [processCodePoint_bounds f cp g aw lsb b hc hh hb] at hp
  have hupos : (0 : ℚ) < (f.unitsPerEm : ℚ) := by exact_mod_cast hu
  have hann : (0 : ℚ) ≤ (f.ascender : ℚ) := by exact_mod_cast ha
  rw [← Option.some.inj hp]
  constructor
  · show round5 (max 0 _) = _
    congr 1
    apply max_eq_right
    split_ifs with hy
    · exact div_nonneg hy.le hupos.le
    · exact div_nonneg hann hupos.le
  · show round5 (max 0 _) = _
    congr 1
    apply max_eq_right
    split_ifs with hy
    · have h0 : (0 : ℚ) ≤ -b.yMin := by linarith
      exact div_nonneg h0 hupos.le
    · exact le_refl 0

/-- C4, witness: the spec's synthetic glyph — bounds `(0, -200, 300, 700)`
under `unitsPerEm = 1000` — yields `height = 0.7` and `depth = 0.2`. -/
theorem C4_witness :
    (demoRecord.height = round5 (if 0 < (demoBBox).yMax
        then demoBBox.yMax / (demoFont.unitsPerEm : ℚ) else font_height demoFont)
      ∧ demoRecord.depth = round5 (if demoBBox.yMin < 0
        then -demoBBox.yMin / (demoFont.unitsPerEm : ℚ) else 0))
    ∧ demoRecord.height = 7/10 ∧ demoRecord.depth = 1/5 :=
  ⟨C4_bounds_height_depth demoFont 65 "A" 500 0 demoBBox demoRecord
      (by decide) (by decide) (by decide) (by decide) (by decide)
      (by rw [demo_extract_eval]; exact List.mem_singleton_self _),
    rfl, rfl⟩

/-- C5, counterexample: `unitsPerEm = 2048`, `ascender = 1`, and a glyph with
no resolvable outline yield an emitted default height of `0.00049`, not the
exact `ascender / units_per_em = 1/2048` the claim requires: the claim
ignores the 5-decimal rounding applied at record-creation. -/
theorem C5_counterexample :
    extract_all_available_characters cexFontDefaults =
      [(66, { depth := 49/100000, height := 49/100000, italic := 0, skew := 0, width := 1 })]
    ∧ dictLookup cexFontDefaults.cmap 66 = some "B"
    ∧ dictLookup cexFontDefaults.glyphSet "B" = none
    ∧ cexFontDefaults.ascender = 1 ∧ cexFontDefaults.unitsPerEm = 2048
    ∧ (49 : ℚ) / 100000 ≠ (1 : ℚ) / 2048 := by
  refine ⟨cexFontDefaults_extract_eval, by decide, by decide, rfl, rfl, by norm_num⟩

/-- C5, amended: for every glyph whose ink bounds are unavailable or whose
bounds computation raises (in a font with positive `unitsPerEm` and
non-negative ascender), the emitted record uses the font-wide defaults
`height = ascender / units_per_em` and `depth = max(0, -descender /
units_per_em)`, each rounded to 5 decimal digits; and extraction processes
every code point of the character map independently, so a failing glyph
never aborts the batch. -/
theorem C5_default_fallback :
    (∀ (f : Font) (cp : ℕ) (g : String) (aw : ℕ) (lsb : ℤ) (r : CharacterMetrics),
      0 < f.unitsPerEm → 0 ≤ f.ascender →
      dictLookup f.cmap cp = some g →
      dictLookup f.hmtx g = some (aw, lsb) →
      (dictLookup f.glyphSet g = none ∨
        dictLookup f.glyphSet g = some DrawOutcome.noBounds ∨
        dictLookup f.glyphSet g = some DrawOutcome.raises) →
      (cp, r) ∈ extract_all_available_characters f →
      r.height = round5 (font_height f)
      ∧ r.depth = round5 (max 0 (-(f.descender : ℚ) / (f.unitsPerEm : ℚ))))
    ∧ (∀ (f : Font) (cp : ℕ) (r : CharacterMetrics),
        (cp, r) ∈ extract_all_available_characters f ↔
          (cp ∈ f.cmap.map Prod.fst ∧ processCodePoint f cp = some r)) := by
  refine ⟨?_, mem_extract_iff⟩
  intro f cp g aw lsb r hu ha hc hh hb hr
  obtain ⟨-, hp⟩ := (mem_extract_iff f cp r).mp hr
  rw [processCodePoint_default f cp g aw lsb hc hh hb] at hp
  have hupos : (0 : ℚ) < (f.unitsPerEm : ℚ) := by exact_mod_cast hu
  have hann : (0 : ℚ) ≤ (f.ascender : ℚ) := by exact_mod_cast ha
  rw [← Option.some.inj hp]
  constructor
  · show round5 (max 0 (font_height f)) = _
    congr 1
    exact max_eq_right (div_nonneg hann hupos.le)
  · show round5 (max 0 (font_depth f)) = _
    congr 1
    rw [font_depth]
    split_ifs with hd
    · rfl
    · push_neg at hd
      have h1 : -(f.descender : ℚ) / (f.unitsPerEm : ℚ) ≤ 0 := by
        apply div_nonpos_of_nonpos_of_nonneg
        · simp only [neg_nonpos]
          exact_mod_cast hd
        · exact hupos.le
      rw [max_eq_left h1, max_self]

/-- C5, witness: a glyph absent from the glyph set in `fallbackFont`
(`ascender = 800`, `descender = -200`, `unitsPerEm = 1000`) gets the rounded
font-wide defaults, and the per-code-point characterisation holds on
`demoFont`. -/
theorem C5_witness :
    (fallbackRecord.height = round5 (font_height fallbackFont)
      ∧ fallbackRecord.depth = round5 (max 0
          (-(fallbackFont.descender : ℚ) / (fallbackFont.unitsPerEm : ℚ))))
    ∧ ((66, fallbackRecord) ∈ extract_all_available_characters fallbackFont ↔
        (66 ∈ fallbackFont.cmap.map Prod.fst
          ∧ processCodePoint fallbackFont 66 = some fallbackRecord)) :=
  ⟨C5_default_fallback.1 fallbackFont 66 "B" 400 0 fallbackRecord
      (by decide) (by decide) (by decide) (by decide) (Or.inl (by decide))
      (by rw [fallback_extract_eval]; exact List.mem_singleton_self _),
    C5_default_fallback.2 fallbackFont 66 fallbackRecord⟩

/-- C6, counterexample: advance width 1 under `unitsPerEm = 2048` yields an
emitted width of `0.00049`, not `1/2048`: the claim ignores the 5-decimal
rounding applied at record-creation (line 93). -/
theorem C6_counterexample :
    extract_all_available_characters cexFontWidth =
      [(67, { depth := 1/2, height := 1, italic := 0, skew := 0, width := 49/100000 })]
    ∧ dictLookup cexFontWidth.cmap 67 = some "C"
    ∧ dictLookup cexFontWidth.hmtx "C" = some (1, 0)
    ∧ cexFontWidth.unitsPerEm = 2048
    ∧ (49 : ℚ) / 100000 ≠ (1 : ℚ) / 2048 := by
  refine ⟨cexFontWidth_extract_eval, by decide, by decide, rfl, by norm_num⟩

/-- C6, amended: for every code point with a resolvable advance-width entry
(in a font with positive `unitsPerEm`), the emitted width is
`advance_width / units_per_em` rounded to 5 decimal digits; the spec's
instance — advance width 500 under `unitsPerEm = 1000` — still yields
exactly `width = 0.5`. -/
theorem C6_width_formula :
    (∀ (f : Font) (cp : ℕ) (g : String) (aw : ℕ) (lsb : ℤ) (r : CharacterMetrics),
      0 < f.unitsPerEm →
      dictLookup f.cmap cp = some g →
      dictLookup f.hmtx g = some (aw, lsb) →
      (cp, r) ∈ extract_all_available_characters f →
      r.width = round5 ((aw : ℚ) / (f.unitsPerEm : ℚ)))
    ∧ (65, demoRecord) ∈ extract_all_available_characters demoFont
    ∧ demoRecord.width = 1/2 := by
  refine ⟨?_, by rw [demo_extract_eval]; exact List.mem_singleton_self _, rfl⟩
  intro f cp g aw lsb r hu hc hh hr
  obtain ⟨-, hp⟩ := (mem_extract_iff f cp r).mp hr
  rw [processCodePoint_width f cp g aw lsb r hc hh hp]
  have hupos : (0 : ℚ) < (f.unitsPerEm : ℚ) := by exact_mod_cast hu
  congr 1
  exact max_eq_right (div_nonneg (Nat.cast_nonneg aw) hupos.le)

/-- C6, witness: the `demoFont` glyph — advance width 500, `unitsPerEm =
1000` — has emitted width `round5(500/1000) = 0.5`. -/
theorem C6_witness :
    demoRecord.width = round5 ((500 : ℚ) / (demoFont.unitsPerEm : ℚ))
    ∧ demoRecord.width = 1/2 :=
  ⟨C6_width_formula.1 demoFont 65 "A" 500 0 demoRecord (by decide) (by decide)
      (by decide) (by rw [demo_extract_eval]; exact List.mem_singleton_self _),
    rfl⟩

/-- C7: the key set of the output mapping is exactly the set of cmap code
points whose resolved glyph has an advance-width entry; and a font whose
character map holds exactly `{32, 65, 9731}` (each with an advance-width
entry) yields exactly those three keys, in code-point order. -/
theorem C7_key_set :
    (∀ (f : Font) (cp : ℕ),
      cp ∈ (extract_all_available_characters f).map Prod.fst ↔
        ∃ g e, dictLookup f.cmap cp = some g ∧ dictLookup f.hmtx g = some e)
    ∧ (extract_all_available_characters completenessFont).map Prod.fst
        = [32, 65, 9731] := by
  constructor
  · intro f cp
    constructor
    · intro h
      rw [List.mem_map] at h
      obtain ⟨⟨cp', r⟩, hmem, hfst⟩ := h
      obtain ⟨-, hp⟩ := (mem_extract_iff f cp' r).mp hmem
      have hcp : cp' = cp := hfst
      subst hcp
      exact processCodePoint_isSome f cp' r hp
    · rintro ⟨g, ⟨aw, lsb⟩, hc, hh⟩
      have hk : cp ∈ f.cmap.map Prod.fst :=
        (dictLookup_isSome_iff f.cmap cp).mp ⟨g, hc⟩
      obtain ⟨m, hm⟩ := processCodePoint_isSome_of f cp g aw lsb hc hh
      exact List.mem_map.mpr ⟨(cp, m), (mem_extract_iff f cp m).mpr ⟨hk, hm⟩, rfl⟩
  · simp only [extract_all_available_characters, completenessFont, List.map,
      List.insertionSort, List.orderedInsert, List.filterMap, processCodePoint,
      dictLookup]

/-- C7, witness: code point 9731 of `completenessFont` is in the key set, and
the key set is exactly `[32, 65, 9731]`. -/
theorem C7_witness :
    9731 ∈ (extract_all_available_characters completenessFont).map Prod.fst
    ∧ (extract_all_available_characters completenessFont).map Prod.fst
        = [32, 65, 9731] :=
  ⟨(C7_key_set.1 completenessFont 9731).mpr ⟨"snowman", (600, 0), by decide, by decide⟩,
    C7_key_set.2⟩

/-- C8: extraction is deterministic — it is a pure function of the parsed
font, so two runs on the same font contents produce identical mappings. -/
theorem C8_deterministic :
    ∀ f g : Font, f = g →
      extract_all_available_characters f = extract_all_available_characters g := by
  intro f g h
  rw [h]

/-- C8, witness: two runs on `demoFont` agree. -/
theorem C8_witness :
    extract_all_available_characters demoFont = extract_all_available_characters demoFont :=
  C8_deterministic demoFont demoFont rfl

/-- C9: on an empty mapping the formatter writes nothing and returns `None`
(printing a message instead), and the driver treats an empty extraction as
non-fatal: it prints the failure message and the process exits with status 0
having written no file. -/
theorem C9_empty_extraction :
    (∀ font_name : String, save_complete_metrics font_name [] = SaveResult.noMetrics)
    ∧ (∀ (font_path : String) (f : Font),
        extract_all_available_characters f = [] →
        mainDriver font_path (Except.ok f) =
          { exitCode := 0, written := none, failedDiagnosticOnStdout := false
            tracebackOnStderr := false, printedNoExtractionMsg := true }) := by
  constructor
  · intro fn
    rfl
  · intro p f h
    simp [mainDriver, h]

/-- C9, witness: a font with an empty character map extracts nothing, the
driver exits 0 writing no file, and the formatter returns `None` on the
empty mapping. -/
theorem C9_witness :
    save_complete_metrics "Excalifont-Regular" [] = SaveResult.noMetrics
    ∧ mainDriver "NoGlyphs.ttf" (Except.ok emptyFont) =
        { exitCode := 0, written := none, failedDiagnosticOnStdout := false
          tracebackOnStderr := false, printedNoExtractionMsg := true } :=
  ⟨C9_empty_extraction.1 "Excalifont-Regular",
    C9_empty_extraction.2 "NoGlyphs.ttf" emptyFont rfl⟩

/-- Re-round every field of a record (what a formatter-side rounding pass
would compute). -/
def roundRecord (m : CharacterMetrics) : CharacterMetrics :=
  { depth := round5 m.depth, height := round5 m.height, italic := round5 m.italic,
    skew := round5 m.skew, width := round5 m.width }

/-- C10: every record the extraction returns already has depth, height,
italic, skew and width fixed by 5-decimal rounding (the rounding happens at
record-creation inside extraction), and re-rounding every stored field before
formatting leaves the formatter's output unchanged — the formatter serializes
the stored values verbatim and performs no rounding of its own. -/
theorem C10_rounding_in_extraction :
    (∀ (f : Font) (cp : ℕ) (r : CharacterMetrics),
      (cp, r) ∈ extract_all_available_characters f →
      round5 r.depth = r.depth ∧ round5 r.height = r.height
      ∧ round5 r.italic = r.italic ∧ round5 r.skew = r.skew
      ∧ round5 r.width = r.width)
    ∧ (∀ (f : Font) (font_name : String),
        dart_output font_name ((extract_all_available_characters f).map
          (fun p => (p.1, roundRecord p.2))) =
        dart_output font_name (extract_all_available_characters f)) := by
  have fixed : ∀ (f : Font) (cp : ℕ) (r : CharacterMetrics),
      (cp, r) ∈ extract_all_available_characters f →
      round5 r.depth = r.depth ∧ round5 r.height = r.height
      ∧ round5 r.italic = r.italic ∧ round5 r.skew = r.skew
      ∧ round5 r.width = r.width := by
    intro f cp r hr
    obtain ⟨d, h, w, rfl⟩ := extract_record_shape f cp r hr
    exact ⟨round5_idem (max 0 d), round5_idem (max 0 h), round5_zero,
      round5_zero, round5_idem (max 0 w)⟩
  refine ⟨fixed, ?_⟩
  intro f fn
  congr 1
  apply map_eq_self_of_mem
  rintro ⟨cp, r⟩ hp
  obtain ⟨h1, h2, h3, h4, h5⟩ := fixed f cp r hp
  rw [Prod.mk.injEq]
  refine ⟨rfl, ?_⟩
  rw [roundRecord, h1, h2, h3, h4, h5]

/-- C10, witness: the record `demoFont` emits for code point 65 is fixed by
re-rounding, and re-rounding before formatting does not change the emitted
table for `demoFont`. -/
theorem C10_witness :
    (round5 demoRecord.depth = demoRecord.depth
      ∧ round5 demoRecord.height = demoRecord.height
      ∧ round5 demoRecord.italic = demoRecord.italic
      ∧ round5 demoRecord.skew = demoRecord.skew
      ∧ round5 demoRecord.width = demoRecord.width)
    ∧ dart_output "Excalifont-Regular" ((extract_all_available_characters demoFont).map
        (fun p => (p.1, roundRecord p.2))) =
      dart_output "Excalifont-Regular" (extract_all_available_characters demoFont) :=
  ⟨C10_rounding_in_extraction.1 demoFont 65 demoRecord
      (by rw [demo_extract_eval]; exact List.mem_singleton_self _),
    C10_rounding_in_extraction.2 demoFont "Excalifont-Regular"⟩
